import Mathlib

/-!
Shallow embedding of the CalendarServer scheduling work-queue engine
(`txdav/caldav/datastore/scheduling/work.py`) and proofs about the claims
of the natural-language specification.

Conventions used throughout:
* Python lists become `List`; SQL tables become `List` of row structures.
* Machine state touched by a work item (table rows, acquired named locks,
  messages handed to the external scheduling collaborator) is threaded as an
  explicit state structure; a work item's `doWork` is a state transformer.
* Python `set(...)` reads are determinized with `List.dedup` (the source
  relies only on the set of elements, never on a particular iteration order).
* A raised exception becomes an explicit constructor of a result type.
-/

namespace CalendarServer

/-! ### iTIP status codes

Modelled from the spec: the fixed protocol constants of the iTIP status
module (`txdav/caldav/datastore/scheduling/itip.py`, not under `src/`).
Per spec section 6, status codes are strings of the form `N.M;free text`
and only the `N.M` prefix is compared; "delivered" and "pending" are fixed
protocol constants and "service unavailable" is a local substitute code. -/

def MESSAGE_DELIVERED_CODE : String := "1.2"

def MESSAGE_PENDING_CODE : String := "1.0"

def SERVICE_UNAVAILABLE_CODE : String := "5.1"

/-- Configuration surface used by the response/retry policy
(`config.Scheduling.Options.WorkQueues`). -/
structure WorkQueuesConfig where
  maxTemporaryFailures : Nat
  temporaryFailureDelay : Nat
deriving DecidableEq, Repr

/-- Status code extraction from a request-status string:
`status.split(";")[0]` in `extractSchedulingResponse` (work.py line 250),
i.e. the prefix of the string before the first semicolon (the whole string
when no semicolon occurs). -/
def statusCodeOf (status : String) : String :=
  String.mk (status.data.takeWhile (fun c => c ≠ ';'))

/-- Embedding of `ScheduleWorkMixin.extractSchedulingResponse`
(work.py lines 231-258).  A queued response is flattened here to the list of
its `(recipient, reqstatus)` pairs; the result pairs each recipient with the
extracted status code, together with the `all_delivered` flag, which is true
exactly when every extracted code is the delivered code. -/
def extractSchedulingResponse (queuedResponses : List (String × String)) :
    List (String × String) × Bool :=
  let results := queuedResponses.map (fun item => (item.1, statusCodeOf item.2))
  (results, results.all (fun r => r.2 == MESSAGE_DELIVERED_CODE))

/-- A calendar ATTENDEE/ORGANIZER property: its calendar-user-address value
and its optional SCHEDULE-STATUS parameter. -/
structure CalProp where
  value : String
  scheduleStatus : Option String
deriving DecidableEq, Repr

/-- Setting the SCHEDULE-STATUS parameter on every property whose value is
the given recipient (the inner loop of `handleSchedulingResponse`). -/
def applyStatus (recipient statusCode : String) (calendar : List CalProp) :
    List CalProp :=
  calendar.map fun p =>
    if p.value == recipient then { p with scheduleStatus := some statusCode } else p

/-- Embedding of `ScheduleWorkMixin.handleSchedulingResponse`
(work.py lines 261-291).  For every `(recipient, statusCode)` pair whose code
is not the delivered code, the SCHEDULE-STATUS parameter of every matching
property is set to that code; the `changed` flag becomes true exactly when at
least one property was touched.  Property values never change, so matching
against the current list coincides with the dictionary built from the
original properties in the source. -/
def handleSchedulingResponse (response : List (String × String))
    (calendar : List CalProp) : List CalProp × Bool :=
  response.foldl
    (fun acc r =>
      if r.2 == MESSAGE_DELIVERED_CODE then acc
      else if acc.1.any (fun p => p.value == r.1) then (applyStatus r.1 r.2 acc.1, true)
      else acc)
    (calendar, false)

/-- Result of `ScheduleWorkMixin.checkTemporaryFailure`: either the
`JobTemporaryError` was raised with the configured delay, or execution
proceeds with the (possibly rewritten) results. -/
inductive TempCheck where
  | raised (delay : Nat)
  | proceed (results : List (String × String))
deriving DecidableEq, Repr

/-- Embedding of `ScheduleWorkMixin.checkTemporaryFailure`
(work.py lines 294-310).  Note the guard ranges over ALL results handed in,
delivered ones included: `all([result[1] == MESSAGE_PENDING_CODE for result
in results])`. -/
def checkTemporaryFailure (cfg : WorkQueuesConfig) (jobFailed : Nat)
    (results : List (String × String)) : TempCheck :=
  if results.all (fun r => r.2 == MESSAGE_PENDING_CODE) then
    if cfg.maxTemporaryFailures ≤ jobFailed then
      TempCheck.proceed (results.map (fun r => (r.1, SERVICE_UNAVAILABLE_CODE)))
    else
      TempCheck.raised cfg.temporaryFailureDelay
  else
    TempCheck.proceed results

/-- Outcome of the response-handling tail of a send work item's `doWork`:
either a temporary failure was raised (no calendar write happens), or the
item completed, recording the possibly-updated calendar object (`none` when
no write was performed) and the final result list. -/
inductive WorkOutcome where
  | tempFailure (delay : Nat)
  | completed (written : Option (List CalProp)) (results : List (String × String))
deriving DecidableEq, Repr

/-- Embedding of the response-handling tail shared by
`ScheduleOrganizerSendWork.doWork` (work.py lines 603-614) and
`ScheduleReplyWork.doWork` (lines 725-736), for an execution whose target
resource was found: extract the results; if all delivered, do nothing more;
otherwise run the temporary-failure check and, when it proceeds, write the
updated calendar data exactly when `handleSchedulingResponse` changed it. -/
def processResponses (cfg : WorkQueuesConfig) (jobFailed : Nat)
    (queuedResponses : List (String × String)) (calendar : List CalProp) :
    WorkOutcome :=
  let er := extractSchedulingResponse queuedResponses
  if er.2 then
    WorkOutcome.completed none er.1
  else
    match checkTemporaryFailure cfg jobFailed er.1 with
    | TempCheck.raised delay => WorkOutcome.tempFailure delay
    | TempCheck.proceed results =>
        let hr := handleSchedulingResponse results calendar
        WorkOutcome.completed (if hr.2 then some hr.1 else none) results

/-- C1 (counterexample): at the concrete execution with delivery results
`[("a", "1.2;ok"), ("b", "1.0;queued")]` (not all delivered), every
NON-delivered extracted result carries the pending code and the job failure
count 0 is strictly below the configured maximum 3, yet no temporary failure
carrying the configured delay is raised: the execution instead completes and
writes the pending code into the calendar data.  The source's guard
(work.py line 302) ranges over all results, delivered ones included, so a
mixed delivered/pending result set never triggers the retry branch. -/
theorem checkTemporaryFailure_claim_counterexample :
    (∀ r ∈ (extractSchedulingResponse [("a", "1.2;ok"), ("b", "1.0;queued")]).1,
        r.2 ≠ MESSAGE_DELIVERED_CODE → r.2 = MESSAGE_PENDING_CODE) ∧
    (extractSchedulingResponse [("a", "1.2;ok"), ("b", "1.0;queued")]).2 = false ∧
    0 < (3 : Nat) ∧
    processResponses ⟨3, 60⟩ 0 [("a", "1.2;ok"), ("b", "1.0;queued")] [⟨"b", none⟩] ≠
      WorkOutcome.tempFailure 60 ∧
    processResponses ⟨3, 60⟩ 0 [("a", "1.2;ok"), ("b", "1.0;queued")] [⟨"b", none⟩] =
      WorkOutcome.completed (some [⟨"b", some "1.0"⟩]) [("a", "1.2"), ("b", "1.0")] := by
  decide

/-- C1 (amended): for an execution of the Organizer-Send or Attendee-Reply
response tail whose extracted delivery results are not all delivered, if
EVERY extracted result's status code (delivered ones included) equals the
canonical pending code, then: with the job's accumulated failure count
strictly below the configured MaxTemporaryFailures, the execution raises a
temporary failure carrying the configured TemporaryFailureDelay and no
calendar-data write is performed; with the failure count at or above the
maximum, every result's status code is rewritten to the service-unavailable
code and execution proceeds to record those codes in the calendar data. -/
theorem checkTemporaryFailure_policy (cfg : WorkQueuesConfig) (jobFailed : Nat)
    (queued : List (String × String)) (calendar : List CalProp)
    (hall : ∀ r ∈ (extractSchedulingResponse queued).1, r.2 = MESSAGE_PENDING_CODE)
    (hnd : (extractSchedulingResponse queued).2 = false) :
    (jobFailed < cfg.maxTemporaryFailures →
      processResponses cfg jobFailed queued calendar =
        WorkOutcome.tempFailure cfg.temporaryFailureDelay) ∧
    (cfg.maxTemporaryFailures ≤ jobFailed →
      processResponses cfg jobFailed queued calendar =
        (let results := (extractSchedulingResponse queued).1.map
            (fun r => (r.1, SERVICE_UNAVAILABLE_CODE))
         let hr := handleSchedulingResponse results calendar
         WorkOutcome.completed (if hr.2 then some hr.1 else none) results)) := by
  have hallb : (extractSchedulingResponse queued).1.all
      (fun r => r.2 == MESSAGE_PENDING_CODE) = true := by
    rw [List.all_eq_true]
    intro r hr
    exact beq_iff_eq.mpr (hall r hr)
  constructor
  · intro hlt
    unfold processResponses checkTemporaryFailure
    simp only [hnd, hallb, Bool.false_eq_true, if_false, if_true,
      Nat.not_le.mpr hlt]
  · intro hge
    unfold processResponses checkTemporaryFailure
    simp only [hnd, hallb, Bool.false_eq_true, if_false, if_true]
    simp [hge]

/-- C1 (witness): the amended retry policy evaluated at a concrete
all-pending execution below the retry budget. -/
theorem checkTemporaryFailure_policy_witness :
    processResponses ⟨3, 60⟩ 0 [("b", "1.0;queued")] [⟨"b", none⟩] =
      WorkOutcome.tempFailure 60 :=
  (checkTemporaryFailure_policy ⟨3, 60⟩ 0 [("b", "1.0;queued")] [⟨"b", none⟩]
    (by decide) (by decide)).1 (by decide)

/-! ### Refresh batching subsystem (`ScheduleRefreshWork`) -/

/-- Configuration surface used by the refresh subsystem
(`config.Scheduling.Options.AttendeeRefreshBatch` and
`config.Scheduling.Options.WorkQueues` delays). -/
structure RefreshConfig where
  attendeeRefreshBatch : Nat
  attendeeRefreshBatchDelaySeconds : Nat
  attendeeRefreshBatchIntervalSeconds : Nat
deriving DecidableEq, Repr

/-- A SCHEDULE_REFRESH_WORK row. -/
structure RefreshWorkRow where
  workID : Nat
  homeResourceID : Nat
  resourceID : Nat
  attendeeCount : Nat
  notBefore : Nat
deriving DecidableEq, Repr

/-- The state a refresh work item touches: the SCHEDULE_REFRESH_WORK table
(its rows other than the executing item's own row, which the job machinery
deletes before `doWork` runs), the SCHEDULE_REFRESH_ATTENDEES table as
`(resourceID, attendee)` rows, the named locks acquired, the batches handed
to the scheduling collaborator's refresh send, and the work-id counter used
by enqueue. -/
structure RefreshState where
  nextWorkID : Nat
  refreshWork : List RefreshWorkRow
  pendingAttendees : List (Nat × String)
  locksAcquired : List String
  refreshSends : List (List String)
deriving DecidableEq, Repr

/-- The deduplicated pending-attendee set read for a resource:
`SELECT ATTENDEE FROM SCHEDULE_REFRESH_ATTENDEES WHERE RESOURCE_ID = rid`
followed by `list(set(...))` (determinized by `List.dedup`, which keeps
first occurrences; the source relies only on the set of elements). -/
def pendingAttendeesOf (st : RefreshState) (rid : Nat) : List String :=
  ((st.pendingAttendees.filter (fun row => row.1 == rid)).map Prod.snd).dedup

/-- Embedding of `ScheduleRefreshWork.refreshAttendees` (work.py lines
791-824): read the pending set for the organizer's resource, insert only the
requested attendees not already pending (a set difference in the source,
determinized by `dedup`), then unconditionally enqueue a new refresh work
item with `notBefore = now + AttendeeRefreshBatchDelaySeconds`. -/
def refreshAttendees (cfg : RefreshConfig) (now : Nat) (homeID rid : Nat)
    (attendees : List String) (st : RefreshState) : RefreshState :=
  let pending := (st.pendingAttendees.filter (fun row => row.1 == rid)).map Prod.snd
  let attendeesToRefresh := attendees.dedup.filter (fun a => !(pending.contains a))
  { st with
    pendingAttendees :=
      st.pendingAttendees ++ attendeesToRefresh.map (fun a => (rid, a)),
    refreshWork := st.refreshWork ++
      [{ workID := st.nextWorkID, homeResourceID := homeID, resourceID := rid,
         attendeeCount := attendees.length,
         notBefore := now + cfg.attendeeRefreshBatchDelaySeconds }],
    nextWorkID := st.nextWorkID + 1 }

/-- Identity of an executing refresh work item (`workID` from the base
record, stored home/resource ids, derived icalendarUID). -/
structure RefreshItem where
  workID : Nat
  homeResourceID : Nat
  resourceID : Nat
  icalendarUID : String
deriving DecidableEq, Repr

/-- Embedding of `ScheduleRefreshWork._doDelayedRefresh` (work.py lines
915-942): when the organizer's calendar object resource still exists, the
implicit-processing UID lock is acquired and the batch is handed to the
scheduling collaborator's refresh; when the resource lookup returns None the
execution only logs and performs no side effect. -/
def doDelayedRefresh (resourceExists : Bool) (self : RefreshItem)
    (attendeesToProcess : List String) (st : RefreshState) : RefreshState :=
  if resourceExists then
    { st with
      locksAcquired := st.locksAcquired ++ ["ImplicitUIDLock:" ++ self.icalendarUID],
      refreshSends := st.refreshSends ++ [attendeesToProcess] }
  else st

/-- Embedding of `ScheduleRefreshWork.doWork` (work.py lines 850-912):
first the supersede check (any other SCHEDULE_REFRESH_WORK row for the same
home/resource makes this item a no-op); then the deduplicated pending set is
read (done when empty); the first `AttendeeRefreshBatch` attendees form the
batch, exactly whose rows are deleted; a follow-up item is enqueued only when
attendees remain past the batch; finally the delayed refresh runs. -/
def refreshDoWork (cfg : RefreshConfig) (now : Nat) (resourceExists : Bool)
    (self : RefreshItem) (st : RefreshState) : RefreshState :=
  let rows := st.refreshWork.filter (fun r =>
    r.homeResourceID == self.homeResourceID && r.resourceID == self.resourceID)
  if rows.isEmpty then
    let pendingAttendees := pendingAttendeesOf st self.resourceID
    if pendingAttendees.isEmpty then st
    else
      let attendeesToProcess := pendingAttendees.take cfg.attendeeRefreshBatch
      let remaining := pendingAttendees.drop cfg.attendeeRefreshBatch
      let kept := st.pendingAttendees.filter
        (fun row => !(row.1 == self.resourceID && attendeesToProcess.contains row.2))
      let st1 := { st with pendingAttendees := kept }
      let st2 :=
        if remaining.isEmpty then st1
        else
          { st1 with
            refreshWork := st1.refreshWork ++
              [{ workID := st1.nextWorkID, homeResourceID := self.homeResourceID,
                 resourceID := self.resourceID, attendeeCount := remaining.length,
                 notBefore := now + cfg.attendeeRefreshBatchIntervalSeconds }],
            nextWorkID := st1.nextWorkID + 1 }
      doDelayedRefresh resourceExists self attendeesToProcess st2
  else st

/-- C3: when a refresh work item executes while a later-enqueued refresh
work row for the same home resource and resource exists, the executing item
is a no-op: the state (pending-attendee rows, refresh sends, locks, queued
work) is returned unchanged. -/
theorem refresh_superseded_noop (cfg : RefreshConfig) (now : Nat)
    (resourceExists : Bool) (self : RefreshItem) (st : RefreshState)
    (h : ∃ r ∈ st.refreshWork, r.homeResourceID = self.homeResourceID ∧
      r.resourceID = self.resourceID ∧ self.workID < r.workID) :
    refreshDoWork cfg now resourceExists self st = st := by
  obtain ⟨r, hr, h1, h2, _⟩ := h
  have hmem : r ∈ st.refreshWork.filter (fun r =>
      r.homeResourceID == self.homeResourceID && r.resourceID == self.resourceID) := by
    simp [List.mem_filter, hr, h1, h2]
  have hne : (st.refreshWork.filter (fun r =>
      r.homeResourceID == self.homeResourceID && r.resourceID == self.resourceID)).isEmpty
      = false := by
    rcases hfe : st.refreshWork.filter (fun r =>
        r.homeResourceID == self.homeResourceID && r.resourceID == self.resourceID) with
      _ | ⟨a, l⟩
    · rw [hfe] at hmem
      simp at hmem
    · rw [hfe]
      rfl
  unfold refreshDoWork
  simp [hne]

/-- C3 (witness): a concrete superseded execution, with a pending attendee
present, leaves the state untouched. -/
theorem refresh_superseded_noop_witness :
    refreshDoWork ⟨5, 30, 60⟩ 0 true ⟨1, 10, 20, "u"⟩
      { nextWorkID := 3, refreshWork := [⟨2, 10, 20, 1, 0⟩],
        pendingAttendees := [(20, "a")], locksAcquired := [], refreshSends := [] } =
      { nextWorkID := 3, refreshWork := [⟨2, 10, 20, 1, 0⟩],
        pendingAttendees := [(20, "a")], locksAcquired := [], refreshSends := [] } :=
  refresh_superseded_noop ⟨5, 30, 60⟩ 0 true ⟨1, 10, 20, "u"⟩ _ (by decide)

/-- C2 (code divergence): a refresh execution that passes the supersede
check and refreshes a non-empty batch which drains the pending-attendee set
to empty does NOT enqueue a follow-up refresh work item: here the batch
`["a"]` is refreshed (`refreshSends = [["a"]]`), the table is drained, and
`refreshWork` remains empty, while the claim (and the class docstring,
work.py lines 782-785) says a follow-up is always enqueued after any
refresh runs. -/
theorem refresh_drained_no_followup :
    refreshDoWork ⟨5, 30, 60⟩ 0 true ⟨1, 10, 20, "u"⟩
      { nextWorkID := 2, refreshWork := [], pendingAttendees := [(20, "a")],
        locksAcquired := [], refreshSends := [] } =
      { nextWorkID := 2, refreshWork := [], pendingAttendees := [],
        locksAcquired := ["ImplicitUIDLock:u"], refreshSends := [["a"]] } := by
  decide

/-- Membership in the deduplicated pending set coincides with the presence
of a row in the pending-attendee table. -/
theorem mem_pendingAttendeesOf (st : RefreshState) (rid : Nat) (a : String) :
    a ∈ pendingAttendeesOf st rid ↔ (rid, a) ∈ st.pendingAttendees := by
  simp only [pendingAttendeesOf, List.mem_dedup, List.mem_map, List.mem_filter,
    beq_iff_eq]
  constructor
  · rintro ⟨p, ⟨hp, hrid⟩, hsnd⟩
    have : (rid, a) = p := by
      cases p
      cases hrid
      cases hsnd
      rfl
    rwa [this]
  · intro h
    exact ⟨(rid, a), ⟨h, rfl⟩, rfl⟩

/-- C4: `refreshAttendees` inserts exactly the requested attendees not
already pending for the resource (no duplicates among the inserted rows, all
owned by this resource), so that the unique pending set becomes the union of
the previous set and the request; a new refresh work item is enqueued
unconditionally; and triggering with A,B then B,C before any drain yields
the unique pending set A,B,C. -/
theorem refreshAttendees_spec (cfg : RefreshConfig) (now : Nat)
    (homeID rid : Nat) (attendees : List String) (st : RefreshState) :
    (∀ a, a ∈ pendingAttendeesOf (refreshAttendees cfg now homeID rid attendees st) rid ↔
      (a ∈ pendingAttendeesOf st rid ∨ a ∈ attendees)) ∧
    (∃ inserted : List (Nat × String),
      (refreshAttendees cfg now homeID rid attendees st).pendingAttendees =
        st.pendingAttendees ++ inserted ∧
      (inserted.map Prod.snd).Nodup ∧
      (∀ p ∈ inserted, p.1 = rid) ∧
      (∀ a, (rid, a) ∈ inserted ↔ (a ∈ attendees ∧ a ∉ pendingAttendeesOf st rid))) ∧
    ((refreshAttendees cfg now homeID rid attendees st).refreshWork.length =
      st.refreshWork.length + 1) ∧
    (pendingAttendeesOf
      (refreshAttendees ⟨5, 30, 60⟩ 0 7 1 ["B", "C"]
        (refreshAttendees ⟨5, 30, 60⟩ 0 7 1 ["A", "B"]
          { nextWorkID := 0, refreshWork := [], pendingAttendees := [],
            locksAcquired := [], refreshSends := [] })) 1 = ["A", "B", "C"]) := by
  have hins : ∀ b : String,
      ((rid, b) ∈ (attendees.dedup.filter
        (fun a => !(((st.pendingAttendees.filter (fun row => row.1 == rid)).map
          Prod.snd).contains a))).map (fun a => (rid, a))) ↔
      (b ∈ attendees ∧ b ∉ pendingAttendeesOf st rid) := by
    intro b
    simp [List.mem_filter, List.mem_dedup, List.contains, pendingAttendeesOf,
      Prod.ext_iff]
  refine ⟨?_, ?_, ?_, ?_⟩
  · intro a
    rw [mem_pendingAttendeesOf, mem_pendingAttendeesOf]
    simp only [refreshAttendees, List.mem_append, hins a]
    rw [← mem_pendingAttendeesOf]
    by_cases hp : a ∈ pendingAttendeesOf st rid <;> tauto
  · refine ⟨_, rfl, ?_, ?_, hins⟩
    · rw [List.map_map]
      have : (Prod.snd ∘ fun a => ((rid, a) : Nat × String)) = id := by
        funext a
        rfl
      rw [this, List.map_id]
      exact (attendees.nodup_dedup).filter _
    · intro p hp
      simp only [List.mem_map] at hp
      obtain ⟨a, _, rfl⟩ := hp
      rfl
  · simp [refreshAttendees]
  · decide

/-- C4 (witness): a concrete trigger makes its attendee pending. -/
theorem refreshAttendees_spec_witness :
    "A" ∈ pendingAttendeesOf
      (refreshAttendees ⟨5, 30, 60⟩ 0 7 1 ["A"]
        { nextWorkID := 0, refreshWork := [], pendingAttendees := [],
          locksAcquired := [], refreshSends := [] }) 1 :=
  ((refreshAttendees_spec ⟨5, 30, 60⟩ 0 7 1 ["A"]
    { nextWorkID := 0, refreshWork := [], pendingAttendees := [],
      locksAcquired := [], refreshSends := [] }).1 "A").mpr (Or.inr (by decide))

/-- C5: when a refresh execution passes the supersede check and the
deduplicated pending read is non-empty, the batch drain removes from the
pending-attendee table exactly the rows of this resource whose attendee is
in the first `AttendeeRefreshBatch` attendees of the deduplicated read set;
every row for another attendee or another resource survives. -/
theorem refresh_batch_deletion_exact (cfg : RefreshConfig) (now : Nat)
    (resourceExists : Bool) (self : RefreshItem) (st : RefreshState)
    (hnos : ∀ r ∈ st.refreshWork,
      ¬(r.homeResourceID = self.homeResourceID ∧ r.resourceID = self.resourceID))
    (hne : pendingAttendeesOf st self.resourceID ≠ []) :
    (refreshDoWork cfg now resourceExists self st).pendingAttendees =
      st.pendingAttendees.filter (fun row =>
        !(row.1 == self.resourceID &&
          ((pendingAttendeesOf st self.resourceID).take
            cfg.attendeeRefreshBatch).contains row.2)) := by
  have hrows : st.refreshWork.filter (fun r =>
      r.homeResourceID == self.homeResourceID && r.resourceID == self.resourceID) = [] := by
    rw [List.filter_eq_nil_iff]
    intro r hr
    have := hnos r hr
    simp only [Bool.and_eq_true, beq_iff_eq]
    tauto
  have hpe : (pendingAttendeesOf st self.resourceID).isEmpty = false := by
    rcases hx : pendingAttendeesOf st self.resourceID with _ | ⟨a, l⟩
    · exact absurd hx hne
    · rfl
  unfold refreshDoWork
  rw [hrows]
  simp only [List.isEmpty_nil, if_true, hpe, Bool.false_eq_true, if_false]
  unfold doDelayedRefresh
  split
  · split <;> rfl
  · split <;> rfl

/-- C5 (witness): a concrete drain with batch size 1 removes exactly the
read batch row and spares both the same-resource remainder and the row of
another resource. -/
theorem refresh_batch_deletion_exact_witness :
    (refreshDoWork ⟨1, 30, 60⟩ 0 true ⟨1, 10, 20, "u"⟩
      { nextWorkID := 2, refreshWork := [],
        pendingAttendees := [(20, "a"), (20, "b"), (21, "c")],
        locksAcquired := [], refreshSends := [] }).pendingAttendees =
      [(20, "b"), (21, "c")] :=
  (refresh_batch_deletion_exact ⟨1, 30, 60⟩ 0 true ⟨1, 10, 20, "u"⟩ _
    (by decide) (by decide)).trans (by decide)

/-! ### Work group ledger and chaining (`ScheduleWorkMixin.afterWork`) -/

/-- The five work item kinds sharing the common lifecycle. -/
inductive WorkType where
  | organizer
  | organizerSend
  | reply
  | refresh
  | autoReply
deriving DecidableEq, Repr

/-- A SCHEDULE_WORK (work group ledger) row: work id, job id, grouping UID
and the work type recorded by `ScheduleWorkMixin.create` (work.py lines
80-86). -/
structure ScheduleWorkRow where
  workID : Nat
  jobID : Nat
  icalendarUID : String
  workType : WorkType
deriving DecidableEq, Repr

/-- A JOB row as far as this engine observes it: its id, the accumulated
failure count, and the earliest execution time. -/
structure JobRow where
  jobID : Nat
  failed : Nat
  notBefore : Nat
deriving DecidableEq, Repr

/-- Determinization of `ORDER BY WORK_ID LIMIT 1`: the row carrying the
least workID (workIDs are unique in the ledger). -/
def minByWorkID : List ScheduleWorkRow → Option ScheduleWorkRow
  | [] => none
  | r :: rs =>
    match minByWorkID rs with
    | none => some r
    | some m => if r.workID ≤ m.workID then some r else some m

/-- The sibling query of `afterWork` (work.py lines 177-182): the oldest
SCHEDULE_WORK row sharing the UID other than the executing item's own. -/
def oldestSibling (ledger : List ScheduleWorkRow) (uid : String)
    (selfWorkID : Nat) : Option ScheduleWorkRow :=
  minByWorkID (ledger.filter (fun r => r.icalendarUID == uid && r.workID != selfWorkID))

/-- Embedding of `ScheduleWorkMixin.afterWork` (work.py lines 166-188):
only an Organizer-Send item looks for the oldest other ledger row with its
UID, and only when that row's work type is Organizer-Send too does it load
the row's job and update its notBefore to the current time. -/
def afterWork (selfType : WorkType) (selfWorkID : Nat) (uid : String) (now : Nat)
    (ledger : List ScheduleWorkRow) (jobs : List JobRow) : List JobRow :=
  if selfType = WorkType.organizerSend then
    match oldestSibling ledger uid selfWorkID with
    | some w =>
      if w.workType = WorkType.organizerSend then
        jobs.map (fun j => if j.jobID == w.jobID then { j with notBefore := now } else j)
      else jobs
    | none => jobs
  else jobs

theorem minByWorkID_eq_none {l : List ScheduleWorkRow}
    (h : minByWorkID l = none) : l = [] := by
  cases l with
  | nil => rfl
  | cons r rs =>
    unfold minByWorkID at h
    rcases hm : minByWorkID rs with _ | m <;> rw [hm] at h
    · exact absurd h (by simp)
    · have h2 : (if r.workID ≤ m.workID then some r else some m) =
          (none : Option ScheduleWorkRow) := h
      by_cases hle : r.workID ≤ m.workID
      · rw [if_pos hle] at h2
        exact absurd h2 (by simp)
      · rw [if_neg hle] at h2
        exact absurd h2 (by simp)

theorem minByWorkID_mem {l : List ScheduleWorkRow} {m : ScheduleWorkRow}
    (h : minByWorkID l = some m) : m ∈ l := by
  induction l generalizing m with
  | nil => simp [minByWorkID] at h
  | cons r rs ih =>
    unfold minByWorkID at h
    rcases hm : minByWorkID rs with _ | m2 <;> rw [hm] at h
    · rw [Option.some.injEq] at h
      subst h
      exact List.mem_cons_self r rs
    · have h2 : (if r.workID ≤ m2.workID then some r else some m2) = some m := h
      by_cases hle : r.workID ≤ m2.workID
      · rw [if_pos hle, Option.some.injEq] at h2
        subst h2
        exact List.mem_cons_self r rs
      · rw [if_neg hle, Option.some.injEq] at h2
        subst h2
        exact List.mem_cons_of_mem r (ih hm)

theorem minByWorkID_le {l : List ScheduleWorkRow} {m : ScheduleWorkRow}
    (h : minByWorkID l = some m) : ∀ r ∈ l, m.workID ≤ r.workID := by
  induction l generalizing m with
  | nil => simp [minByWorkID] at h
  | cons r rs ih =>
    unfold minByWorkID at h
    rcases hm : minByWorkID rs with _ | m2 <;> rw [hm] at h
    · have hrs := minByWorkID_eq_none hm
      subst hrs
      rw [Option.some.injEq] at h
      subst h
      intro x hx
      rcases List.mem_cons.mp hx with hx | hx
      · subst hx
        exact Nat.le_refl _
      · simp at hx
    · intro x hx
      have h2 : (if r.workID ≤ m2.workID then some r else some m2) = some m := h
      by_cases hle : r.workID ≤ m2.workID
      · rw [if_pos hle, Option.some.injEq] at h2
        subst h2
        rcases List.mem_cons.mp hx with hx | hx
        · subst hx
          exact Nat.le_refl _
        · exact Nat.le_trans hle (ih hm x hx)
      · rw [if_neg hle, Option.some.injEq] at h2
        subst h2
        rcases List.mem_cons.mp hx with hx | hx
        · subst hx
          exact Nat.le_of_lt (Nat.lt_of_not_le hle)
        · exact ih hm x hx

/-- C6: the `afterWork` hook of an Organizer-Send item queries the oldest
(smallest workID) other ledger row sharing its icalendarUID; when that row
exists and its work type is also Organizer-Send, it sets the row's job's
notBefore to the current time, regardless of the job's original value; when
the row's work type differs or no row exists nothing changes; and the
`afterWork` of every other work kind never promotes any sibling. -/
theorem afterWork_chaining (selfType : WorkType) (selfWorkID : Nat) (uid : String)
    (now : Nat) (ledger : List ScheduleWorkRow) (jobs : List JobRow) :
    (selfType ≠ WorkType.organizerSend →
      afterWork selfType selfWorkID uid now ledger jobs = jobs) ∧
    (∀ w, oldestSibling ledger uid selfWorkID = some w →
      (w ∈ ledger ∧ w.icalendarUID = uid ∧ w.workID ≠ selfWorkID ∧
        ∀ r ∈ ledger, r.icalendarUID = uid → r.workID ≠ selfWorkID →
          w.workID ≤ r.workID)) ∧
    (∀ w, oldestSibling ledger uid selfWorkID = some w →
      w.workType = WorkType.organizerSend →
      afterWork WorkType.organizerSend selfWorkID uid now ledger jobs =
        jobs.map (fun j => if j.jobID == w.jobID then { j with notBefore := now } else j)) ∧
    (∀ w, oldestSibling ledger uid selfWorkID = some w →
      w.workType ≠ WorkType.organizerSend →
      afterWork WorkType.organizerSend selfWorkID uid now ledger jobs = jobs) ∧
    (oldestSibling ledger uid selfWorkID = none →
      afterWork WorkType.organizerSend selfWorkID uid now ledger jobs = jobs) := by
  refine ⟨?_, ?_, ?_, ?_, ?_⟩
  · intro h
    simp [afterWork, h]
  · intro w hw
    have hmem := minByWorkID_mem hw
    rw [List.mem_filter] at hmem
    obtain ⟨hwl, hcond⟩ := hmem
    simp only [Bool.and_eq_true, beq_iff_eq, bne_iff_ne] at hcond
    refine ⟨hwl, hcond.1, hcond.2, ?_⟩
    intro r hr hruid hrid
    exact minByWorkID_le hw r (List.mem_filter.mpr ⟨hr, by simp [hruid, hrid]⟩)
  · intro w hw hty
    unfold afterWork
    rw [hw]
    simp [hty]
  · intro w hw hty
    unfold afterWork
    rw [hw]
    simp [hty]
  · intro hnone
    unfold afterWork
    rw [hnone]
    simp

/-- C6 (witness): completing an Organizer-Send item for UID `u` with one
other queued Organizer-Send ledger row for `u` sets that sibling's job's
notBefore to now (42), overriding its original value (99). -/
theorem afterWork_chaining_witness :
    afterWork WorkType.organizerSend 5 "u" 42
      [⟨3, 7, "u", WorkType.organizerSend⟩] [⟨7, 0, 99⟩] = [⟨7, 0, 42⟩] :=
  ((afterWork_chaining WorkType.organizerSend 5 "u" 42
      [⟨3, 7, "u", WorkType.organizerSend⟩] [⟨7, 0, 99⟩]).2.2.1
    ⟨3, 7, "u", WorkType.organizerSend⟩ (by decide) (by decide)).trans (by decide)

/-! ### Migration (`migrate` of each work item kind) -/

/-- A destination calendar home as the migration callback returns it
(`new_home`, queried for `id()` and `uid()` when new work is scheduled). -/
structure HomeRef where
  id : Nat
  uid : String
deriving DecidableEq, Repr

/-- A destination calendar object resource as the migration callback
returns it (`new_resource`); it carries its owning home id, which the
refresh and auto-reply kinds read as `resource._home.id()`. -/
structure ResourceRef where
  id : Nat
  homeID : Nat
  uid : String
deriving DecidableEq, Repr

/-- The identity fields of the new work item a successful migration
creates; the kind-specific payload is copied verbatim from the migrated
record. -/
structure MigratedWork where
  homeResourceID : Nat
  resourceID : Option Nat
  pause : Bool
deriving DecidableEq, Repr

/-- Outcome of `migrate(mapIDsCallback)`: `err` models an uncaught Python
exception, `notCreated` the `False` return with no work created, and
`created` the `True` return together with the new paused work item. -/
inductive MigrateResult where
  | err
  | notCreated
  | created (w : MigratedWork)
deriving DecidableEq, Repr

/-- Embedding of the `migrate` shared shape of `ScheduleOrganizerWork`
(work.py lines 404-432), `ScheduleOrganizerSendWork` (lines 537-561) and
`ScheduleReplyWork` (lines 665-688): call the callback on the stored
resourceID; if the item previously had a resource id and the mapping now
yields no resource, return False without creating work; otherwise schedule
an equivalent item in paused state under `new_home.id()` (an absent
`new_home` there would raise) and return True. -/
def organizerStyleMigrate (selfResourceID : Option Nat)
    (mapIDsCallback : Option Nat → Option HomeRef × Option ResourceRef) :
    MigrateResult :=
  let mapped := mapIDsCallback selfResourceID
  if selfResourceID ≠ none ∧ mapped.2 = none then MigrateResult.notCreated
  else
    match mapped.1 with
    | none => MigrateResult.err
    | some h =>
        MigrateResult.created
          { homeResourceID := h.id, resourceID := mapped.2.map ResourceRef.id,
            pause := true }

/-- Embedding of the `migrate` shared shape of `ScheduleRefreshWork`
(work.py lines 827-847) and `ScheduleAutoReplyWork` (lines 1029-1049):
call the callback on the stored resourceID (non-nullable for these kinds),
ignore the returned home; if the mapping yields no resource return False
without creating work; otherwise schedule an equivalent paused item under
the new resource's identity (`resource._home.id()`, `resource.id()`) and
return True. -/
def refreshStyleMigrate (selfResourceID : Nat)
    (mapIDsCallback : Option Nat → Option HomeRef × Option ResourceRef) :
    MigrateResult :=
  let mapped := mapIDsCallback (some selfResourceID)
  match mapped.2 with
  | none => MigrateResult.notCreated
  | some res =>
      MigrateResult.created
        { homeResourceID := res.homeID, resourceID := some res.id, pause := true }

/-- C7: for every work item kind, `migrate` returns "not created" (and does
not raise) when the callback maps the item's resource id to no destination
resource — for the organizer-style kinds (Organizer-Coalesce,
Organizer-Send, Attendee-Reply) when the stored resourceID was non-null and
the mapping returns None, for the refresh and auto-reply kinds whenever the
mapping returns None; otherwise (given the callback supplies the
destination home the organizer-style kinds read) it creates an equivalent
new work item under the new home/resource identity with the pause flag set
and reports it created. -/
theorem migrate_spec (selfResourceID : Option Nat) (rid : Nat)
    (cb : Option Nat → Option HomeRef × Option ResourceRef) :
    (∀ r, selfResourceID = some r → (cb selfResourceID).2 = none →
      organizerStyleMigrate selfResourceID cb = MigrateResult.notCreated) ∧
    (∀ h, (cb selfResourceID).1 = some h →
      (selfResourceID = none ∨ (cb selfResourceID).2 ≠ none) →
      organizerStyleMigrate selfResourceID cb =
        MigrateResult.created
          { homeResourceID := h.id,
            resourceID := (cb selfResourceID).2.map ResourceRef.id,
            pause := true }) ∧
    ((cb (some rid)).2 = none →
      refreshStyleMigrate rid cb = MigrateResult.notCreated) ∧
    (∀ res, (cb (some rid)).2 = some res →
      refreshStyleMigrate rid cb =
        MigrateResult.created
          { homeResourceID := res.homeID, resourceID := some res.id,
            pause := true }) := by
  refine ⟨?_, ?_, ?_, ?_⟩
  · intro r hr hm
    unfold organizerStyleMigrate
    rw [if_pos ⟨by simp [hr], hm⟩]
  · intro h hh hcase
    unfold organizerStyleMigrate
    have hneg : ¬(selfResourceID ≠ none ∧ (cb selfResourceID).2 = none) := by
      rcases hcase with hc | hc <;> simp [hc]
    rw [if_neg hneg, hh]
  · intro hm
    unfold refreshStyleMigrate
    simp only [hm]
  · intro res hres
    unfold refreshStyleMigrate
    simp only [hres]

/-- C7 (witness): a concrete callback with no destination resource drops
the organizer-style item, and one with a destination creates the paused
equivalent for the refresh style. -/
theorem migrate_spec_witness :
    organizerStyleMigrate (some 4)
      (fun _ => (some ⟨9, "h"⟩, none)) = MigrateResult.notCreated ∧
    refreshStyleMigrate 4
      (fun _ => (some ⟨9, "h"⟩, some ⟨5, 9, "r"⟩)) =
      MigrateResult.created { homeResourceID := 9, resourceID := some 5, pause := true } :=
  ⟨(migrate_spec (some 4) 4 (fun _ => (some ⟨9, "h"⟩, none))).1 4 rfl rfl,
   (migrate_spec (some 4) 4
      (fun _ => (some ⟨9, "h"⟩, some ⟨5, 9, "r"⟩))).2.2.2 ⟨5, 9, "r"⟩ rfl⟩

/-! ### Locking (`ScheduleWorkMixin.runlock`) -/

/-- Results the two `trylock` attempts would report if made: the group lock
over all SCHEDULE_WORK rows sharing the UID, and the row lock on the item's
own kind-specific row. -/
structure LockOracle where
  groupLock : Bool
  itemLock : Bool
deriving DecidableEq, Repr

/-- A lock acquisition attempt, recorded in the order performed. -/
inductive LockAttempt where
  | group
  | item
deriving DecidableEq, Repr

/-- Embedding of `ScheduleWorkMixin.runlock` (work.py lines 111-129): try
the UID-group lock first (it can span multiple rows, hence the deadlock
ordering); only when it succeeded, try the row lock on the item's own row;
return the GROUP lock result — the item trylock's own result is discarded
by the source (`returnValue(locked)`). The trace records the attempts in
order. -/
def runlock (oracle : LockOracle) : Bool × List LockAttempt :=
  let locked := oracle.groupLock
  if locked then (locked, [LockAttempt.group, LockAttempt.item])
  else (locked, [LockAttempt.group])

/-- C8 (counterexample): when the group lock succeeds but the item-row
trylock fails, `runlock` still returns true, so its boolean reports the
group-lock outcome, not "whether the work item was locked": it differs from
the conjunction of the two attempted locks. -/
theorem runlock_claim_counterexample :
    (runlock ⟨true, false⟩).2 = [LockAttempt.group, LockAttempt.item] ∧
    (⟨true, false⟩ : LockOracle).itemLock = false ∧
    (runlock ⟨true, false⟩).1 = true ∧
    (runlock ⟨true, false⟩).1 ≠
      ((⟨true, false⟩ : LockOracle).groupLock &&
        (⟨true, false⟩ : LockOracle).itemLock) := by
  decide

/-- C8 (amended): `runlock` attempts the UID-group lock first, attempts the
item-row lock only after the group-lock attempt succeeded (never before and
never when it failed), and returns, without blocking, the boolean result of
the group-lock attempt (the item-row trylock's result is discarded). -/
theorem runlock_spec (o : LockOracle) :
    (runlock o).2.head? = some LockAttempt.group ∧
    (LockAttempt.item ∈ (runlock o).2 ↔ o.groupLock = true) ∧
    ((runlock o).2 = [LockAttempt.group] ∨
      (runlock o).2 = [LockAttempt.group, LockAttempt.item]) ∧
    (runlock o).1 = o.groupLock := by
  rcases o with ⟨g, i⟩
  cases g <;> simp [runlock]

/-! ### Auto-reply work (`ScheduleAutoReplyWork`) -/

/-- A SCHEDULE_AUTO_REPLY_WORK row. -/
structure AutoReplyRow where
  workID : Nat
  resourceID : Nat
  partstat : String
deriving DecidableEq, Repr

/-- The state an auto-reply work item touches: the
SCHEDULE_AUTO_REPLY_WORK table, the named locks acquired, and the resources
for which a reply was sent via the scheduling collaborator. -/
structure AutoReplyState where
  autoReplyWork : List AutoReplyRow
  locksAcquired : List String
  repliesSent : List Nat
deriving DecidableEq, Repr

/-- Embedding of `ScheduleAutoReplyWork._sendAttendeeAutoReply` (work.py
lines 1071-1109): when the target resource still exists the UID lock is
acquired and one reply for the resource is sent via the scheduling
collaborator; when the resource lookup returns None the execution only logs
and performs no side effect. -/
def sendAttendeeAutoReply (resourceExists : Bool) (selfResourceID : Nat)
    (uid : String) (st : AutoReplyState) : AutoReplyState :=
  if resourceExists then
    { st with
      locksAcquired := st.locksAcquired ++ ["ImplicitUIDLock:" ++ uid],
      repliesSent := st.repliesSent ++ [selfResourceID] }
  else st

/-- Embedding of `ScheduleAutoReplyWork.doWork` (work.py lines 1052-1068):
first delete every SCHEDULE_AUTO_REPLY_WORK row whose resourceID equals the
executing item's, then send the auto-reply. -/
def autoReplyDoWork (resourceExists : Bool) (self : AutoReplyRow) (uid : String)
    (st : AutoReplyState) : AutoReplyState :=
  let kept := st.autoReplyWork.filter (fun r => !(r.resourceID == self.resourceID))
  sendAttendeeAutoReply resourceExists self.resourceID uid
    { st with autoReplyWork := kept }

/-- A burst of queued auto-reply executions run in turn by the job runner:
an item whose kind-specific row was already cascade-deleted is skipped
(`loadForJob`, work.py lines 94-108, drops such items); the job machinery
deletes the executing item's own row before `doWork` runs. -/
def runAutoReplyBurst (resourceExists : Bool) (uid : String)
    (items : List AutoReplyRow) (st : AutoReplyState) : AutoReplyState :=
  items.foldl
    (fun s item =>
      if s.autoReplyWork.any (fun r => r.workID == item.workID) then
        autoReplyDoWork resourceExists item uid
          { s with autoReplyWork :=
              s.autoReplyWork.filter (fun r => !(r.workID == item.workID)) }
      else s)
    st

/-- C9: a refresh execution and an auto-reply execution whose target
calendar object resource no longer exists (the resource lookup returned
None) acquire no lock, hand nothing to the scheduling collaborator, mutate
no calendar data and leave every modelled effect unchanged, completing
without an error. -/
theorem missing_resource_noop (cfg : RefreshConfig) (now : Nat)
    (selfR : RefreshItem) (batch : List String) (stR : RefreshState)
    (selfA : AutoReplyRow) (uid : String) (stA : AutoReplyState) :
    doDelayedRefresh false selfR batch stR = stR ∧
    sendAttendeeAutoReply false selfA.resourceID uid stA = stA ∧
    (refreshDoWork cfg now false selfR stR).locksAcquired = stR.locksAcquired ∧
    (refreshDoWork cfg now false selfR stR).refreshSends = stR.refreshSends ∧
    (autoReplyDoWork false selfA uid stA).locksAcquired = stA.locksAcquired ∧
    (autoReplyDoWork false selfA uid stA).repliesSent = stA.repliesSent := by
  refine ⟨rfl, rfl, ?_, ?_, rfl, rfl⟩ <;>
    · unfold refreshDoWork doDelayedRefresh
      split_ifs <;> simp_all
      split_ifs <;> rfl

theorem autoReplyDoWork_work (resourceExists : Bool) (self : AutoReplyRow)
    (uid : String) (st : AutoReplyState) :
    (autoReplyDoWork resourceExists self uid st).autoReplyWork =
      st.autoReplyWork.filter (fun r => !(r.resourceID == self.resourceID)) := by
  unfold autoReplyDoWork sendAttendeeAutoReply
  split <;> rfl

theorem autoReplyDoWork_replies (resourceExists : Bool) (self : AutoReplyRow)
    (uid : String) (st : AutoReplyState) :
    (autoReplyDoWork resourceExists self uid st).repliesSent.length ≤
      st.repliesSent.length + 1 := by
  unfold autoReplyDoWork sendAttendeeAutoReply
  split
  · simp
  · exact Nat.le_succ _

theorem runAutoReplyBurst_frozen (resourceExists : Bool) (uid : String) (rid : Nat) :
    ∀ (items : List AutoReplyRow) (st : AutoReplyState),
      (∀ i ∈ items, ∀ r ∈ st.autoReplyWork, r.workID = i.workID →
        r.resourceID = rid) →
      (∀ r ∈ st.autoReplyWork, r.resourceID ≠ rid) →
      runAutoReplyBurst resourceExists uid items st = st := by
  intro items
  induction items with
  | nil =>
    intro st _ _
    rfl
  | cons i is ih =>
    intro st hP hno
    have hany : st.autoReplyWork.any (fun r => r.workID == i.workID) = false := by
      rw [List.any_eq_false]
      intro r hr
      simp only [beq_iff_eq]
      intro hw
      exact hno r hr (hP i (List.mem_cons_self i is) r hr hw)
    unfold runAutoReplyBurst
    rw [List.foldl_cons, if_neg (by simp [hany])]
    exact ih st (fun j hj => hP j (List.mem_cons_of_mem i hj)) hno

theorem runAutoReplyBurst_le (resourceExists : Bool) (uid : String) (rid : Nat) :
    ∀ (items : List AutoReplyRow) (st : AutoReplyState),
      (∀ i ∈ items, i.resourceID = rid) →
      (∀ i ∈ items, ∀ r ∈ st.autoReplyWork, r.workID = i.workID →
        r.resourceID = rid) →
      (runAutoReplyBurst resourceExists uid items st).repliesSent.length ≤
        st.repliesSent.length + 1 := by
  intro items
  induction items with
  | nil =>
    intro st _ _
    exact Nat.le_succ _
  | cons i is ih =>
    intro st hR hP
    by_cases hany : st.autoReplyWork.any (fun r => r.workID == i.workID) = true
    · have hstep : runAutoReplyBurst resourceExists uid (i :: is) st =
          runAutoReplyBurst resourceExists uid is
            (autoReplyDoWork resourceExists i uid
              { st with autoReplyWork :=
                  st.autoReplyWork.filter (fun r => !(r.workID == i.workID)) }) := by
        unfold runAutoReplyBurst
        rw [List.foldl_cons, if_pos hany]
      rw [hstep]
      have hsub : ∀ r ∈ (autoReplyDoWork resourceExists i uid
          { st with autoReplyWork :=
              st.autoReplyWork.filter (fun r => !(r.workID == i.workID)) }).autoReplyWork,
          r ∈ st.autoReplyWork := by
        intro r hr
        rw [autoReplyDoWork_work] at hr
        exact (List.mem_filter.mp (List.mem_filter.mp hr).1).1
      have hno : ∀ r ∈ (autoReplyDoWork resourceExists i uid
          { st with autoReplyWork :=
              st.autoReplyWork.filter (fun r => !(r.workID == i.workID)) }).autoReplyWork,
          r.resourceID ≠ rid := by
        intro r hr
        rw [autoReplyDoWork_work] at hr
        have hcond := (List.mem_filter.mp hr).2
        simp only [Bool.not_eq_true', beq_eq_false_iff_ne, ne_eq] at hcond
        rw [← hR i (List.mem_cons_self i is)]
        exact hcond
      have hfroz := runAutoReplyBurst_frozen resourceExists uid rid is _
        (fun j hj r hr => hP j (List.mem_cons_of_mem i hj) r (hsub r hr)) hno
      rw [hfroz]
      calc (autoReplyDoWork resourceExists i uid
            { st with autoReplyWork :=
                st.autoReplyWork.filter (fun r => !(r.workID == i.workID)) }).repliesSent.length
          ≤ ({ st with autoReplyWork :=
                st.autoReplyWork.filter (fun r => !(r.workID == i.workID)) }
              : AutoReplyState).repliesSent.length + 1 :=
            autoReplyDoWork_replies resourceExists i uid _
        _ = st.repliesSent.length + 1 := rfl
    · have hstep : runAutoReplyBurst resourceExists uid (i :: is) st =
          runAutoReplyBurst resourceExists uid is st := by
        unfold runAutoReplyBurst
        rw [List.foldl_cons, if_neg hany]
      rw [hstep]
      exact ih st (fun j hj => hR j (List.mem_cons_of_mem i hj))
        (fun j hj => hP j (List.mem_cons_of_mem i hj))

/-- C10: an auto-reply execution deletes every auto-reply work row sharing
its resourceID before sending (afterwards no queued auto-reply work remains
for that resource while rows of other resources survive), sends at most one
reply itself, and a whole burst of queued auto-reply items for one resource
results in at most one reply being sent. -/
theorem autoReply_coalesces (resourceExists : Bool) (self : AutoReplyRow)
    (uid : String) (st : AutoReplyState) (items : List AutoReplyRow) (rid : Nat) :
    (∀ r ∈ (autoReplyDoWork resourceExists self uid st).autoReplyWork,
      r.resourceID ≠ self.resourceID) ∧
    (∀ r ∈ st.autoReplyWork, r.resourceID ≠ self.resourceID →
      r ∈ (autoReplyDoWork resourceExists self uid st).autoReplyWork) ∧
    ((autoReplyDoWork resourceExists self uid st).repliesSent.length ≤
      st.repliesSent.length + 1) ∧
    ((∀ i ∈ items, i.resourceID = rid) →
      (∀ i ∈ items, ∀ r ∈ st.autoReplyWork, r.workID = i.workID →
        r.resourceID = rid) →
      (runAutoReplyBurst resourceExists uid items st).repliesSent.length ≤
        st.repliesSent.length + 1) := by
  refine ⟨?_, ?_, autoReplyDoWork_replies resourceExists self uid st, ?_⟩
  · intro r hr
    rw [autoReplyDoWork_work] at hr
    have hcond := (List.mem_filter.mp hr).2
    simpa using hcond
  · intro r hr hne
    rw [autoReplyDoWork_work]
    exact List.mem_filter.mpr ⟨hr, by simpa using hne⟩
  · intro hR hP
    exact runAutoReplyBurst_le resourceExists uid rid items st hR hP

/-- C10 (witness): a burst of two queued auto-reply items for resource 20
sends exactly one reply. -/
theorem autoReply_coalesces_witness :
    (runAutoReplyBurst true "u" [⟨1, 20, "A"⟩, ⟨2, 20, "A"⟩]
      { autoReplyWork := [⟨1, 20, "A"⟩, ⟨2, 20, "A"⟩], locksAcquired := [],
        repliesSent := [] }).repliesSent.length ≤ 0 + 1 :=
  (autoReply_coalesces true ⟨1, 20, "A"⟩ "u"
    { autoReplyWork := [⟨1, 20, "A"⟩, ⟨2, 20, "A"⟩], locksAcquired := [],
      repliesSent := [] } [⟨1, 20, "A"⟩, ⟨2, 20, "A"⟩] 20).2.2.2
    (by decide) (by decide)

end CalendarServer
